
import Mathlib

/-!
Shallow embedding of the Moderation Dispatch & Batching Engine of the
Gemini-Moderator repository (src/services/GeminiService.ts), together with
theorems checking the natural-language specification against it.

Conventions of the embedding:
* JavaScript numbers that carry moderation data are modelled as `ℚ`
  (`Option ℚ` where `NaN` is reachable, with `none` playing the role of
  `NaN`); message and chat identifiers are modelled as `Int`.
* JavaScript's falsy coalescing `x || d` on numeric ids is `jsOrInt`.
* The asynchronous engine is modelled as an explicit state machine:
  `queueMessageForModeration` and `batchTimerFire` are the synchronous
  prefixes of the source operations (everything executed before the
  classifier call is issued); an issued call is reified as a `FlushJob`
  and `deliverFlush` performs the result fan-out that the source runs
  after the awaited call returns.
* The remote classifier is an oracle value (`GeminiResponse`), covering
  the structured function-call reply, the free-text reply, the
  empty/unexpected reply and the transport error.
-/

/-! ## JavaScript-flavoured helpers -/

/-- JavaScript `x || d` for an optional numeric id: `undefined` and `0`
are falsy, every other integer is kept. -/
def jsOrInt (o : Option Int) (d : Int) : Int :=
  match o with
  | some v => if v = 0 then d else v
  | none => d

/-- `Array.prototype.map((x, index) => ...)`: map with the element index. -/
def jsMapIdx (f : Nat → α → β) : List α → List β :=
  go 0
where
  go : Nat → List α → List β
    | _, [] => []
    | i, a :: as => f i a :: go (i + 1) as

/-- JavaScript `arr[i]` for a possibly out-of-range signed index
(`arr[i]` is `undefined` outside the bounds, here `none`). -/
def jsIndex (l : List α) (i : Int) : Option α :=
  if 0 ≤ i then l.get? i.toNat else none

/-! ## The data model (source: GeminiService.ts interfaces) -/

/-- Source: the `ModerateMessageRequest` interface. -/
structure ModerateMessageRequest where
  messageText : String
  userName : Option String := none
  userBio : Option String := none
  hasAvatar : Option Bool := none
  suspiciousProfile : Option Bool := none
  suspicionReason : Option String := none
  messageId : Option Int := none
  chatId : Option Int := none
deriving Repr, DecidableEq

/-- Source: the `ModerateMessageResponse` interface.  `confidence` is an
`Option ℚ`: `none` models the JavaScript `NaN` that `parseFloat` can
produce on a degenerate capture. -/
structure ModerateMessageResponse where
  isSpam : Bool
  confidence : Option ℚ
  reason : String
  matchesKnownPattern : Bool
  shouldBan : Bool
  messageId : Option Int
deriving Repr, DecidableEq

/-! ## Case folding and the pattern matcher

The source decides everything in `extractModerationFromText` with
case-insensitive JavaScript regexes over (mostly Russian) text.  The
patterns used there are sequences of literals, optional characters,
character-class repetitions and at most one capturing group, so they are
embedded as token lists interpreted by a small greedy backtracking
matcher, the exact shape of each source regex being kept. -/

/-- Simple case folding for the character ranges the source patterns deal
with: ASCII `A`-`Z` and Cyrillic `А`-`Я`, `Ё`. -/
def foldChar (c : Char) : Char :=
  let n := c.toNat
  if 65 ≤ n ∧ n ≤ 90 then Char.ofNat (n + 32)
  else if 0x410 ≤ n ∧ n ≤ 0x42F then Char.ofNat (n + 0x20)
  else if n = 0x401 then Char.ofNat 0x451
  else c

/-- Case-insensitive match of a literal (already lower-cased) pattern
against a text prefix; returns the rest of the text. -/
def litMatch : List Char → List Char → Option (List Char)
  | [], cs => some cs
  | _ :: _, [] => none
  | p :: ps, c :: cs => if foldChar c = p then litMatch ps cs else none

/-- Length of the maximal run of class characters at the front. -/
def maxRun (f : Char → Bool) : List Char → Nat
  | [] => 0
  | c :: cs => if f (foldChar c) then maxRun f cs + 1 else 0

/-- One token of an embedded source regex. -/
inductive Tok where
  | lit (s : List Char)
  | cls (f : Char → Bool)
  | optc (f : Char → Bool)
  | star (f : Char → Bool)
  | plus (f : Char → Bool)
  | grp (f : Char → Bool)

/-- Greedy backtracking interpreter for a token list at a fixed position.
Returns the text captured by the (unique) `grp` token on success.  The
fuel argument is one unit per token, see `runToks`. -/
def tryToks : Nat → List Tok → List Char → Option (List Char)
  | 0, _, _ => none
  | _ + 1, [], _ => some []
  | fuel + 1, Tok.lit p :: ts, cs =>
    match litMatch p cs with
    | some rest => tryToks fuel ts rest
    | none => none
  | _ + 1, Tok.cls _ :: _, [] => none
  | fuel + 1, Tok.cls f :: ts, c :: cs =>
    if f (foldChar c) then tryToks fuel ts cs else none
  | fuel + 1, Tok.optc _ :: ts, [] => tryToks fuel ts []
  | fuel + 1, Tok.optc f :: ts, c :: cs =>
    if f (foldChar c) then
      match tryToks fuel ts cs with
      | some r => some r
      | none => tryToks fuel ts (c :: cs)
    else tryToks fuel ts (c :: cs)
  | fuel + 1, Tok.star f :: ts, cs =>
    let m := maxRun f cs
    (List.range (m + 1)).findSome? (fun k => tryToks fuel ts (cs.drop (m - k)))
  | fuel + 1, Tok.plus f :: ts, cs =>
    let m := maxRun f cs
    (List.range m).findSome? (fun k => tryToks fuel ts (cs.drop (m - k)))
  | fuel + 1, Tok.grp f :: ts, cs =>
    let m := maxRun f cs
    (List.range m).findSome?
      (fun k => (tryToks fuel ts (cs.drop (m - k))).map (fun _ => cs.take (m - k)))

/-- Match a token list at the start of `cs`. -/
def runToks (toks : List Tok) (cs : List Char) : Option (List Char) :=
  tryToks (toks.length + 1) toks cs

/-- Leftmost match of a token list anywhere in `cs` (JavaScript
`String.prototype.match` scanning). -/
def scanToks (toks : List Tok) : List Char → Option (List Char)
  | [] => runToks toks []
  | c :: rest =>
    match runToks toks (c :: rest) with
    | some cap => some cap
    | none => scanToks toks rest

/-- `regex.test(text)` for an alternation of token-list patterns. -/
def testAlts (pats : List (List Tok)) (cs : List Char) : Bool :=
  pats.any (fun p => (scanToks p cs).isSome)

/-- `text.match(p1) || text.match(p2) || ...`: the capture of the first
pattern (in order) that matches anywhere, as the source chains matches. -/
def capAlts (pats : List (List Tok)) (cs : List Char) : Option (List Char) :=
  pats.findSome? (fun p => scanToks p cs)

/-- The whitespace class used for `\s` and `trim`. -/
def wsChar (c : Char) : Bool :=
  c = ' ' ∨ c = '\t' ∨ c = '\n' ∨ c = '\r' ∨ c = '\x0b' ∨ c = '\x0c' ∨ c.toNat = 0xa0

/-- JavaScript `String.prototype.trim`. -/
def jsTrim (cs : List Char) : List Char :=
  ((cs.dropWhile wsChar).reverse.dropWhile wsChar).reverse

/-- Case-sensitive substring containment (`String.prototype.includes`). -/
def hasSub (needle : List Char) : List Char → Bool
  | [] => needle.isEmpty
  | c :: rest => (needle.isPrefixOf (c :: rest)) || hasSub needle rest

/-- Digit-or-dot class `[\d.]`. -/
def digitDot (c : Char) : Bool := c.isDigit ∨ c = '.'

/-- Cyrillic lower-case class `[а-я]` (after folding). -/
def cyrChar (c : Char) : Bool := 0x430 ≤ c.toNat ∧ c.toNat ≤ 0x44F

/-- `[^\n.]` class. -/
def notNlDot (c : Char) : Bool := ¬ (c = '\n' ∨ c = '.')

/-- `[.\n]` terminator class of the reason patterns. -/
def dotOrNl (c : Char) : Bool := c = '.' ∨ c = '\n'

def digitsToNat : List Char → Nat
  | [] => 0
  | c :: cs => digitsToNatGo (c.toNat - 48) cs
where
  digitsToNatGo : Nat → List Char → Nat
    | acc, [] => acc
    | acc, c :: cs => digitsToNatGo (acc * 10 + (c.toNat - 48)) cs

/-- JavaScript `parseFloat` restricted to a `[\d.]+` capture: integer
part, optional dot, fractional part; `none` is `NaN` (capture without a
digit before the second dot, such as `"."`). -/
def jsParseFloat (cs : List Char) : Option ℚ :=
  let ip := cs.takeWhile Char.isDigit
  let rest := cs.drop ip.length
  match rest with
  | '.' :: rest2 =>
    let fp := rest2.takeWhile Char.isDigit
    if ip.isEmpty ∧ fp.isEmpty then none
    else some ((digitsToNat ip : ℚ) + (digitsToNat fp : ℚ) / ((10 : ℚ) ^ fp.length))
  | _ => if ip.isEmpty then none else some (digitsToNat ip)

/-! ## A small JSON model

`extractModerationFromText` first looks for an embedded JSON object
(`text.match(/\{[\s\S]*?\}/)` followed by `JSON.parse`).  The JSON values
and a fuel-indexed recursive-descent parser embed that step. -/

inductive Jv where
  | jnull
  | jbool (b : Bool)
  | jnum (q : ℚ)
  | jstr (s : List Char)
  | jarr (l : List Jv)
  | jobj (l : List (List Char × Jv))
deriving Repr

def skipWs (cs : List Char) : List Char :=
  cs.dropWhile (fun c => c = ' ' ∨ c = '\t' ∨ c = '\n' ∨ c = '\r')

def hexVal (c : Char) : Option Nat :=
  if c.isDigit then some (c.toNat - 48)
  else if 'a' ≤ c ∧ c ≤ 'f' then some (c.toNat - 87)
  else if 'A' ≤ c ∧ c ≤ 'F' then some (c.toNat - 55)
  else none

/-- JSON string body (after the opening quote); returns content and rest. -/
def parseJStr : Nat → List Char → Option (List Char × List Char)
  | 0, _ => none
  | _ + 1, [] => none
  | _ + 1, '"' :: rest => some ([], rest)
  | fuel + 1, '\\' :: e :: rest =>
    (match e with
     | '"' => (parseJStr fuel rest).map (fun p => ('"' :: p.1, p.2))
     | '\\' => (parseJStr fuel rest).map (fun p => ('\\' :: p.1, p.2))
     | '/' => (parseJStr fuel rest).map (fun p => ('/' :: p.1, p.2))
     | 'n' => (parseJStr fuel rest).map (fun p => ('\n' :: p.1, p.2))
     | 't' => (parseJStr fuel rest).map (fun p => ('\t' :: p.1, p.2))
     | 'r' => (parseJStr fuel rest).map (fun p => ('\r' :: p.1, p.2))
     | 'b' => (parseJStr fuel rest).map (fun p => (Char.ofNat 8 :: p.1, p.2))
     | 'f' => (parseJStr fuel rest).map (fun p => (Char.ofNat 12 :: p.1, p.2))
     | 'u' =>
       (match rest with
        | a :: b :: c :: d :: rest2 =>
          (match hexVal a, hexVal b, hexVal c, hexVal d with
           | some ha, some hb, some hc, some hd =>
             (parseJStr fuel rest2).map
               (fun p => (Char.ofNat (((ha * 16 + hb) * 16 + hc) * 16 + hd) :: p.1, p.2))
           | _, _, _, _ => none)
        | _ => none)
     | _ => none)
  | _ + 1, '\\' :: [] => none
  | fuel + 1, c :: rest => (parseJStr fuel rest).map (fun p => (c :: p.1, p.2))

/-- JSON number (integer part mandatory; fraction optional). -/
def parseJNum (cs : List Char) : Option (ℚ × List Char) :=
  let (neg, cs1) := match cs with
    | '-' :: r => (true, r)
    | _ => (false, cs)
  let ip := cs1.takeWhile Char.isDigit
  if ip.isEmpty then none
  else
    let cs2 := cs1.drop ip.length
    let fin := fun (q : ℚ) (r : List Char) => some (if neg then -q else q, r)
    match cs2 with
    | '.' :: r =>
      let fp := r.takeWhile Char.isDigit
      if fp.isEmpty then fin (digitsToNat ip) cs2
      else fin ((digitsToNat ip : ℚ) + (digitsToNat fp : ℚ) / (10 : ℚ) ^ fp.length)
             (r.drop fp.length)
    | _ => fin (digitsToNat ip) cs2

mutual

def parseJVal : Nat → List Char → Option (Jv × List Char)
  | 0, _ => none
  | fuel + 1, cs0 =>
    let cs := skipWs cs0
    match cs with
    | '{' :: rest =>
      (match skipWs rest with
       | '}' :: r => some (Jv.jobj [], r)
       | rest2 => (parseJMembers fuel rest2).map (fun p => (Jv.jobj p.1, p.2)))
    | '[' :: rest =>
      (match skipWs rest with
       | ']' :: r => some (Jv.jarr [], r)
       | rest2 => (parseJItems fuel rest2).map (fun p => (Jv.jarr p.1, p.2)))
    | '"' :: rest => (parseJStr (rest.length + 1) rest).map (fun p => (Jv.jstr p.1, p.2))
    | 't' :: 'r' :: 'u' :: 'e' :: r => some (Jv.jbool true, r)
    | 'f' :: 'a' :: 'l' :: 's' :: 'e' :: r => some (Jv.jbool false, r)
    | 'n' :: 'u' :: 'l' :: 'l' :: r => some (Jv.jnull, r)
    | _ => (parseJNum cs).map (fun p => (Jv.jnum p.1, p.2))

def parseJMembers : Nat → List Char → Option (List (List Char × Jv) × List Char)
  | 0, _ => none
  | fuel + 1, cs =>
    match skipWs cs with
    | '"' :: rest =>
      (match parseJStr (rest.length + 1) rest with
       | some (key, r1) =>
         (match skipWs r1 with
          | ':' :: r2 =>
            (match parseJVal fuel r2 with
             | some (v, r3) =>
               (match skipWs r3 with
                | ',' :: r4 => (parseJMembers fuel r4).map (fun p => ((key, v) :: p.1, p.2))
                | '}' :: r4 => some ([(key, v)], r4)
                | _ => none)
             | none => none)
          | _ => none)
       | none => none)
    | _ => none

def parseJItems : Nat → List Char → Option (List Jv × List Char)
  | 0, _ => none
  | fuel + 1, cs =>
    match parseJVal fuel cs with
    | some (v, r1) =>
      (match skipWs r1 with
       | ',' :: r2 => (parseJItems fuel r2).map (fun p => (v :: p.1, p.2))
       | ']' :: r2 => some ([v], r2)
       | _ => none)
    | none => none

end

/-- `JSON.parse`: a whole-input JSON value. -/
def parseJson (cs : List Char) : Option Jv :=
  match parseJVal (cs.length + 1) cs with
  | some (v, rest) => if (skipWs rest).isEmpty then some v else none
  | none => none

/-- Property lookup on a parsed object; a later duplicate key wins, as in
JavaScript. -/
def jLookup (l : List (List Char × Jv)) (k : String) : Option Jv :=
  (l.reverse.find? (fun p => p.1 == k.toList)).map Prod.snd

/-- JavaScript `Boolean(v)`. -/
def jvTruthy : Jv → Bool
  | .jnull => false
  | .jbool b => b
  | .jnum q => decide (¬ q = 0)
  | .jstr s => ¬ s.isEmpty
  | .jarr _ => true
  | .jobj _ => true

/-- `Boolean(obj.field)` where the field may be absent. -/
def jvTruthyOpt : Option Jv → Bool
  | some v => jvTruthy v
  | none => false

/-- JavaScript `Number(str)` (none models `NaN`). -/
def jsStringToNum (s : List Char) : Option ℚ :=
  let t := jsTrim s
  if t.isEmpty then some 0
  else
    let (neg, t1) := match t with
      | '-' :: r => (true, r)
      | '+' :: r => (false, r)
      | _ => (false, t)
    let ip := t1.takeWhile Char.isDigit
    let rest := t1.drop ip.length
    let fin := fun (q : ℚ) => some (if neg then -q else q)
    match rest with
    | ['.'] => if ip.isEmpty then none else fin (digitsToNat ip)
    | '.' :: rest2 =>
      let fp := rest2.takeWhile Char.isDigit
      if fp.isEmpty ∨ ¬ (rest2.drop fp.length).isEmpty then none
      else fin ((digitsToNat ip : ℚ) + (digitsToNat fp : ℚ) / (10 : ℚ) ^ fp.length)
    | [] => if ip.isEmpty then none else fin (digitsToNat ip)
    | _ => none

/-- JavaScript `Number(v)` on a JSON value (none models `NaN`). -/
def jvToNum : Jv → Option ℚ
  | .jnull => some 0
  | .jbool b => some (if b then 1 else 0)
  | .jnum q => some q
  | .jstr s => jsStringToNum s
  | .jarr [] => some 0
  | .jarr (_ :: _) => none
  | .jobj _ => none

/-- JavaScript string coercion of a JSON value, for a non-string truthy
`reason` field. -/
def jvDisplay : Jv → String
  | .jstr s => String.mk s
  | .jbool b => if b then "true" else "false"
  | .jnull => "null"
  | .jnum q => if q.den = 1 then toString q.num else toString q.num ++ "/" ++ toString q.den
  | .jarr _ => ""
  | .jobj _ => "[object Object]"

/-- The leftmost match of `/\{[\s\S]*?\}/`: from the first opening brace
to the first closing brace after it, inclusive. -/
def jsonFragment (cs : List Char) : Option (List Char) :=
  let rest := cs.dropWhile (fun c => ¬ c = '{')
  match rest with
  | [] => none
  | b :: tail =>
    let inner := tail.takeWhile (fun c => ¬ c = '}')
    if inner.length = tail.length then none
    else some (b :: inner ++ ['}'])

/-! ## The Text-Heuristic Extractor (source: extractModerationFromText) -/

def colonChar (c : Char) : Bool := c = ':'

def pctChar (c : Char) : Bool := c = '%'

/-- `/не является спамом|не спам|не рекламa/i` — the final `a` of the
third alternative is a Latin `a` in the source. -/
def negSpamPats : List (List Tok) :=
  [[Tok.lit "не является спамом".toList],
   [Tok.lit "не спам".toList],
   [Tok.lit ("не реклам".toList ++ ['a'])]]

/-- `/является спамом|это спам|это реклама/i` -/
def posSpamPats : List (List Tok) :=
  [[Tok.lit "является спамом".toList],
   [Tok.lit "это спам".toList],
   [Tok.lit "это реклама".toList]]

/-- `/спам|реклам|подозрительн|вредоносн/i` -/
def genSpamPats : List (List Tok) :=
  [[Tok.lit "спам".toList],
   [Tok.lit "реклам".toList],
   [Tok.lit "подозрительн".toList],
   [Tok.lit "вредоносн".toList]]

/-- The chained confidence matches:
`/уверенность:?\s*([\d.]+)%?/i || /confidence:?\s*([\d.]+)%?/i ||
/с уверенностью\s*([\d.]+)%?/i`. -/
def confPats : List (List Tok) :=
  [[Tok.lit "уверенность".toList, Tok.optc colonChar, Tok.star wsChar,
    Tok.grp digitDot, Tok.optc pctChar],
   [Tok.lit "confidence".toList, Tok.optc colonChar, Tok.star wsChar,
    Tok.grp digitDot, Tok.optc pctChar],
   [Tok.lit "с уверенностью".toList, Tok.star wsChar,
    Tok.grp digitDot, Tok.optc pctChar]]

/-- `/высок[а-я]+ уверенност|с высокой уверенностью/i` -/
def highConfPats : List (List Tok) :=
  [[Tok.lit "высок".toList, Tok.plus cyrChar, Tok.lit " уверенност".toList],
   [Tok.lit "с высокой уверенностью".toList]]

/-- `/средн[а-я]+ уверенност/i` -/
def midConfPats : List (List Tok) :=
  [[Tok.lit "средн".toList, Tok.plus cyrChar, Tok.lit " уверенност".toList]]

/-- `/низк[а-я]+ уверенност/i` -/
def lowConfPats : List (List Tok) :=
  [[Tok.lit "низк".toList, Tok.plus cyrChar, Tok.lit " уверенност".toList]]

/-- The five reason regexes, in source order. -/
def reasonPats : List (List Tok) :=
  [[Tok.lit "причина".toList, Tok.optc colonChar, Tok.star wsChar,
    Tok.grp notNlDot, Tok.cls dotOrNl],
   [Tok.lit "reason".toList, Tok.optc colonChar, Tok.star wsChar,
    Tok.grp notNlDot, Tok.cls dotOrNl],
   [Tok.lit "потому что".toList, Tok.star wsChar, Tok.grp notNlDot, Tok.cls dotOrNl],
   [Tok.lit "поскольку".toList, Tok.star wsChar, Tok.grp notNlDot, Tok.cls dotOrNl],
   [Tok.lit "так как".toList, Tok.star wsChar, Tok.grp notNlDot, Tok.cls dotOrNl]]

/-- `/следует забанить|нужно забанить|рекоменд[а-я]+ бан|заблокировать пользователя/i` -/
def banPatsA : List (List Tok) :=
  [[Tok.lit "следует забанить".toList],
   [Tok.lit "нужно забанить".toList],
   [Tok.lit "рекоменд".toList, Tok.plus cyrChar, Tok.lit " бан".toList],
   [Tok.lit "заблокировать пользователя".toList]]

/-- `/бан|ban|блокир|заблокир/i` -/
def banPatsB : List (List Tok) :=
  [[Tok.lit "бан".toList],
   [Tok.lit "ban".toList],
   [Tok.lit "блокир".toList],
   [Tok.lit "заблокир".toList]]

/-- `/соответств[а-я]+ известн|известн[а-я]+ шаблон|паттерн|pattern/i` -/
def patPatsA : List (List Tok) :=
  [[Tok.lit "соответств".toList, Tok.plus cyrChar, Tok.lit " известн".toList],
   [Tok.lit "известн".toList, Tok.plus cyrChar, Tok.lit " шаблон".toList],
   [Tok.lit "паттерн".toList],
   [Tok.lit "pattern".toList]]

/-- `/похож[а-я]+ на шаблон|типичн[а-я]+ шлюхобот|типичн[а-я]+ спам/i` -/
def patPatsB : List (List Tok) :=
  [[Tok.lit "похож".toList, Tok.plus cyrChar, Tok.lit " на шаблон".toList],
   [Tok.lit "типичн".toList, Tok.plus cyrChar, Tok.lit " шлюхобот".toList],
   [Tok.lit "типичн".toList, Tok.plus cyrChar, Tok.lit " спам".toList]]

def punctChar (c : Char) : Bool := c = '.' ∨ c = '!' ∨ c = '?'

/-- `text.split(/[.!?]+/)`, used by the reason fallback. -/
def splitPunct : Nat → List Char → List Char → List (List Char)
  | _, [], acc => [acc.reverse]
  | 0, cs, acc => [acc.reverse ++ cs]
  | f + 1, c :: rest, acc =>
    if punctChar c then acc.reverse :: splitPunct f (rest.dropWhile punctChar) []
    else splitPunct f rest (c :: acc)

/-- A sentence mentioning a spam keyword (lower-cased `includes` checks of
the source's reason fallback). -/
def sentenceFlags (s : List Char) : Bool :=
  let l := s.map foldChar
  hasSub "спам".toList l || hasSub "реклам".toList l || hasSub "подозрит".toList l

def findSpamSentence (l : List (List Char)) : Option (List Char) :=
  l.find? sentenceFlags

def reasonDefaultStr : String := "Не удалось извлечь причину из ответа"

def jsonReasonDefaultStr : String := "Извлечено из JSON в тексте"

/-- The embedded-JSON trust step of `extractModerationFromText`: find a
brace fragment, `JSON.parse` it, and if it carries `isSpam` and
`confidence` build the outcome directly from the JSON fields. -/
def jsonTrust (cs : List Char) : Option ModerateMessageResponse :=
  match jsonFragment cs with
  | none => none
  | some frag =>
    match parseJson frag with
    | some (Jv.jobj fields) =>
      if (jLookup fields "isSpam").isSome ∧ (jLookup fields "confidence").isSome then
        some
          { isSpam := jvTruthyOpt (jLookup fields "isSpam")
            confidence := (jLookup fields "confidence").bind jvToNum
            reason :=
              match jLookup fields "reason" with
              | some v => if jvTruthy v then jvDisplay v else jsonReasonDefaultStr
              | none => jsonReasonDefaultStr
            matchesKnownPattern := jvTruthyOpt (jLookup fields "matchesKnownPattern")
            shouldBan := jvTruthyOpt (jLookup fields "shouldBan")
            messageId := none }
      else none
    | _ => none

/-- The keyword path of `extractModerationFromText` (taken when no usable
embedded JSON is found), mirroring the source statement for statement. -/
def keywordExtract (cs : List Char) : ModerateMessageResponse :=
  let isSpam :=
    if testAlts negSpamPats cs then false
    else if testAlts posSpamPats cs then true
    else testAlts genSpamPats cs
  let confidence :=
    match capAlts confPats cs with
    | some cap =>
      (match jsParseFloat cap with
       | some q => some (if 1 < q then q / 100 else q)
       | none => none)
    | none =>
      if testAlts highConfPats cs then some ((9 : ℚ) / 10)
      else if testAlts midConfPats cs then some ((7 : ℚ) / 10)
      else if testAlts lowConfPats cs then some ((3 : ℚ) / 10)
      else some (if isSpam then (3 : ℚ) / 4 else (1 : ℚ) / 4)
  let reason0 :=
    match capAlts reasonPats cs with
    | some cap => String.mk (jsTrim cap)
    | none => reasonDefaultStr
  let reason :=
    if reason0 = reasonDefaultStr ∧ isSpam then
      match findSpamSentence (splitPunct cs.length cs []) with
      | some s => String.mk (jsTrim s)
      | none => reason0
    else reason0
  let shouldBan := testAlts banPatsA cs || testAlts banPatsB cs
  let mkp := testAlts patPatsA cs || testAlts patPatsB cs
  { isSpam := isSpam
    confidence := confidence
    reason := reason
    matchesKnownPattern := mkp || isSpam
    shouldBan := shouldBan
    messageId := none }

/-- `extractModerationFromText` on a character list: trust an embedded
JSON object when it carries the recognisable fields, otherwise fall back
to the ordered keyword rules. -/
def extractModerationCore (cs : List Char) : ModerateMessageResponse :=
  match jsonTrust cs with
  | some r => r
  | none => keywordExtract cs

/-- Source: `extractModerationFromText`. -/
def extractModerationFromText (text : String) : ModerateMessageResponse :=
  extractModerationCore text.toList

/-! ## The Classifier Gateway (source: moderateMessage, moderateMessageBatch,
extractBatchResultsFromText) -/

/-- One possible reply of the remote classifier to one issued call,
covering the regimes the source distinguishes: a structured function
call (with possibly missing arguments), a free-text reply, a reply with
neither part (the "unexpected format" throw), and a transport error. -/
inductive GeminiResponse (α : Type) where
  | funCall (name : String) (args : Option α)
  | text (t : String)
  | empty
  | error
deriving Repr, DecidableEq

/-- Arguments of the declared single-item function `moderate_message`. -/
structure SingleArgs where
  isSpam : Bool
  confidence : ℚ
  reason : String
  matchesKnownPattern : Bool
  shouldBan : Bool
deriving Repr, DecidableEq

/-- One entry of the `moderate_messages_batch` function-call results
array, carrying the classifier's own declared item index. -/
structure BatchEntry where
  messageIndex : Int
  isSpam : Bool
  confidence : ℚ
  reason : String
  matchesKnownPattern : Bool
  shouldBan : Bool
deriving Repr, DecidableEq

/-- The remote classifier as an oracle: what it would reply to the
single-item call and to the multi-item call issued for a flush. -/
structure ClassifierOracle where
  single : GeminiResponse SingleArgs
  batch : GeminiResponse (List BatchEntry)
deriving Repr, DecidableEq

/-- The conservative default of the single-item error paths. -/
def singleErrorResponse (mid : Option Int) : ModerateMessageResponse :=
  { isSpam := false, confidence := some 0, reason := "Произошла ошибка при обработке",
    matchesKnownPattern := false, shouldBan := false, messageId := mid }

/-- Source: `moderateMessage` — structured path, free-text fallback and
the conservative default for every failure regime. -/
def moderateMessage (request : ModerateMessageRequest)
    (resp : GeminiResponse SingleArgs) : ModerateMessageResponse :=
  match resp with
  | .funCall name (some args) =>
    if name = "moderate_message" then
      { isSpam := args.isSpam, confidence := some args.confidence, reason := args.reason,
        matchesKnownPattern := args.matchesKnownPattern, shouldBan := args.shouldBan,
        messageId := request.messageId }
    else singleErrorResponse request.messageId
  | .funCall _ none => singleErrorResponse request.messageId
  | .text t => { extractModerationFromText t with messageId := request.messageId }
  | .empty => singleErrorResponse request.messageId
  | .error => singleErrorResponse request.messageId

/-- Length of a batch-reply separator at this position:
`---`, or `\n\nСообщение <digits>:`, or `Сообщение <digits>:` (the split
regex of `extractBatchResultsFromText`, case-sensitive). -/
def msgSepLen (p : List Char) (cs : List Char) : Option Nat :=
  if p.isPrefixOf cs then
    let rest := cs.drop p.length
    let ds := rest.takeWhile Char.isDigit
    if ds.isEmpty then none
    else
      match rest.drop ds.length with
      | ':' :: _ => some (p.length + ds.length + 1)
      | _ => none
  else none

def sepLen (cs : List Char) : Option Nat :=
  if ("---".toList).isPrefixOf cs then some 3
  else
    match msgSepLen ("\n\nСообщение ".toList) cs with
    | some n => some n
    | none => msgSepLen ("Сообщение ".toList) cs

/-- The source's `text.split` over the alternation of `---`,
`\n\nСообщение \d+:` and `Сообщение \d+:`. -/
def splitGo : Nat → List Char → List Char → List (List Char)
  | _, [], acc => [acc.reverse]
  | 0, cs, acc => [acc.reverse ++ cs]
  | f + 1, c :: rest, acc =>
    match sepLen (c :: rest) with
    | some n => acc.reverse :: splitGo f ((c :: rest).drop n) []
    | none => splitGo f rest (c :: acc)

def splitBatchText (cs : List Char) : List (List Char) :=
  splitGo cs.length cs []

/-- Source: `extractBatchResultsFromText` — split the free-text reply on
the per-item markers and extract each segment, reusing the whole text
when a segment is missing. -/
def extractBatchResultsFromText (text : String)
    (messages : List ModerateMessageRequest) : List ModerateMessageResponse :=
  let cs := text.toList
  if hasSub ("Сообщение 1:".toList) cs || hasSub ("---".toList) cs then
    let segs := splitBatchText cs
    jsMapIdx (fun index msg =>
      let responseText := segs.getD index cs
      { extractModerationCore responseText with
        messageId := some (jsOrInt msg.messageId (Int.ofNat index)) }) messages
  else
    jsMapIdx (fun index msg =>
      { extractModerationCore cs with
        messageId := some (jsOrInt msg.messageId (Int.ofNat index)) }) messages

/-- The conservative defaults returned for a whole failed batch. -/
def batchErrorResponses (messages : List ModerateMessageRequest) :
    List ModerateMessageResponse :=
  jsMapIdx (fun index msg =>
    { isSpam := false, confidence := some 0,
      reason := "Произошла ошибка при обработке батча",
      matchesKnownPattern := false, shouldBan := false,
      messageId := some (jsOrInt msg.messageId (Int.ofNat index)) }) messages

/-- Stable insertion of a batch entry by the classifier's declared index
(JavaScript's stable `sort((a, b) => a.messageIndex - b.messageIndex)`). -/
def insByIndex (e : BatchEntry) : List BatchEntry → List BatchEntry
  | [] => [e]
  | x :: xs => if e.messageIndex < x.messageIndex then e :: x :: xs else x :: insByIndex e xs

def sortByMessageIndex (l : List BatchEntry) : List BatchEntry :=
  l.foldl (fun acc e => insByIndex e acc) []

/-- Source: `moderateMessageBatch` — empty batch short-circuit, the
single-item code path, the structured batch path (sort by declared index
and remap by position), the free-text fallback, and conservative
defaults on every failure regime. -/
def moderateMessageBatch (messages : List ModerateMessageRequest)
    (oracle : ClassifierOracle) : List ModerateMessageResponse :=
  match messages with
  | [] => []
  | [m] => [moderateMessage m oracle.single]
  | _ :: _ :: _ =>
    match oracle.batch with
    | .funCall name (some entries) =>
      if name = "moderate_messages_batch" then
        jsMapIdx (fun index e =>
          { isSpam := e.isSpam
            confidence := some e.confidence
            reason := e.reason
            matchesKnownPattern := e.matchesKnownPattern
            shouldBan := e.shouldBan
            messageId :=
              some (jsOrInt ((jsIndex messages e.messageIndex).bind
                      (fun m => m.messageId)) (Int.ofNat index)) })
          (sortByMessageIndex entries)
      else batchErrorResponses messages
    | .funCall _ none => batchErrorResponses messages
    | .text t => extractBatchResultsFromText t messages
    | .empty => batchErrorResponses messages
    | .error => batchErrorResponses messages

/-! ## The Batching Coordinator (source: queueMessageForModeration and the
batch timer callback)

The engine's shared mutable state is embedded explicitly.  Each call to
the public submit operation creates one pending caller (the promise's
resolve/reject pair); callers are numbered in submission order.  The
`handleResult` closure of caller `c` with in-batch position `i` is
embedded as the pair `(c, i)`; a `FlushJob` records exactly which
closure the flushing code captured and how many times the source invokes
it, so the delivery step reproduces the source's fan-out faithfully. -/

/-- The engine's configuration (constructor parameters `batchTimeout`
and `maxBatchSize`). -/
structure GeminiServiceConfig where
  batchTimeout : Nat
  maxBatchSize : Nat
deriving Repr, DecidableEq

/-- A caller's suspended computation: pending, resolved with an outcome,
or rejected. -/
inductive CallerState where
  | pending
  | resolved (r : ModerateMessageResponse)
  | rejected
deriving Repr, DecidableEq

/-- Source: the `ModerationBatch` interface, with the timer handle made
explicit: `timerArmed` is whether `timer` is non-null, `timerArmedAt` the
time `setTimeout` was called (so the callback is scheduled for
`timerArmedAt + batchTimeout`), and `timerCallerId` the caller whose
`handleResult`/`reject` closures the timer callback captured. -/
structure ModerationBatch where
  messages : List ModerateMessageRequest
  timerArmed : Bool
  timerArmedAt : Nat
  timerCallerId : Nat
  lastMessageTime : Nat
deriving Repr, DecidableEq

/-- The whole service state: the open-batch map (`batchMap`, an
association list keyed by chat id) plus the pending callers. -/
structure GeminiServiceState where
  batchMap : List (Int × ModerationBatch)
  callers : List CallerState
  nextCallerId : Nat
deriving Repr, DecidableEq

/-- `batchMap.get(chatId)`. -/
def mapLookup (k : Int) : List (Int × ModerationBatch) → Option ModerationBatch
  | [] => none
  | (k2, v) :: rest => if k2 = k then some v else mapLookup k rest

/-- `batchMap.set(chatId, batch)`. -/
def mapInsert (k : Int) (v : ModerationBatch) (m : List (Int × ModerationBatch)) :
    List (Int × ModerationBatch) :=
  if (mapLookup k m).isSome then
    m.map (fun p => if p.1 = k then (k, v) else p)
  else m ++ [(k, v)]

/-- `batchMap.delete(chatId)`. -/
def mapErase (k : Int) (m : List (Int × ModerationBatch)) :
    List (Int × ModerationBatch) :=
  m.filter (fun p => ¬ p.1 = k)

/-- The `Map` well-formedness every reachable state keeps: one entry per
chat id. -/
def WFMap (m : List (Int × ModerationBatch)) : Prop :=
  (m.map Prod.fst).Nodup

/-- An issued (not yet returned) classifier call for a flushed batch:
the snapshot handed to `moderateMessageBatch`, the captured
`handleResult` closure (its caller and that caller's in-batch position),
and how many times the flushing code invokes it. -/
structure FlushJob where
  snapshot : List ModerateMessageRequest
  callerId : Nat
  callerIdx : Nat
  iterations : Nat
deriving Repr, DecidableEq

/-- Settle one caller the way a promise settles: only the first
resolution counts. -/
def settleCaller (l : List CallerState) (i : Nat) (s : CallerState) :
    List CallerState :=
  jsMapIdx (fun j c => if j = i then (match c with
    | CallerState.pending => s
    | other => other) else c) l

/-- The `handleResult` closure of the source: resolve the captured caller
with the outcome at the captured position, or reject it when the results
list is too short. -/
def handleResult (st : GeminiServiceState) (callerId callerIdx : Nat)
    (results : List ModerateMessageResponse) : GeminiServiceState :=
  match results.get? callerIdx with
  | some r => { st with callers := settleCaller st.callers callerId (CallerState.resolved r) }
  | none => { st with callers := settleCaller st.callers callerId CallerState.rejected }

/-- Source: `queueMessageForModeration` — the synchronous body of the
promise executor.  Returns the new state and, when this submission
triggers the size flush, the issued classifier call. -/
def queueMessageForModeration (cfg : GeminiServiceConfig) (st : GeminiServiceState)
    (request : ModerateMessageRequest) (now : Nat) :
    GeminiServiceState × Option FlushJob :=
  let chatId := jsOrInt request.chatId 0
  let callerId := st.nextCallerId
  let callers := st.callers ++ [CallerState.pending]
  let batch0 :=
    match mapLookup chatId st.batchMap with
    | some b => b
    | none => { messages := [], timerArmed := false, timerArmedAt := 0,
                timerCallerId := 0, lastMessageTime := now }
  let newId := jsOrInt request.messageId (Int.ofNat batch0.messages.length)
  let assigned := { request with messageId := some newId }
  let batch1 :=
    { batch0 with messages := batch0.messages ++ [assigned], lastMessageTime := now }
  let messageIndex := batch1.messages.length - 1
  if batch1.messages.length = 1 then
    let batch2 :=
      { batch1 with timerArmed := true, timerArmedAt := now, timerCallerId := callerId }
    (⟨mapInsert chatId batch2 st.batchMap, callers, callerId + 1⟩, none)
  else if cfg.maxBatchSize ≤ batch1.messages.length then
    (⟨mapErase chatId st.batchMap, callers, callerId + 1⟩,
     some ⟨batch1.messages, callerId, messageIndex, 1⟩)
  else
    (⟨mapInsert chatId batch1 st.batchMap, callers, callerId + 1⟩, none)

/-- The timer callback's synchronous prefix (everything before the
`await`): snapshot the batch, delete it from the open map, and issue the
classifier call.  The loop after the `await` invokes the captured first
caller's `handleResult` once per snapshot item, hence `iterations`. -/
def batchTimerFire (st : GeminiServiceState) (chatId : Int) :
    GeminiServiceState × Option FlushJob :=
  match mapLookup chatId st.batchMap with
  | some b =>
    if b.timerArmed then
      ({ st with batchMap := mapErase chatId st.batchMap },
       some ⟨b.messages, b.timerCallerId, 0, b.messages.length⟩)
    else (st, none)
  | none => (st, none)

/-- Completion of an issued classifier call: compute the outcomes and run
the captured `handleResult` closure the recorded number of times. -/
def deliverFlush (st : GeminiServiceState) (job : FlushJob)
    (oracle : ClassifierOracle) : GeminiServiceState :=
  let results := moderateMessageBatch job.snapshot oracle
  (List.range job.iterations).foldl
    (fun s _ => handleResult s job.callerId job.callerIdx results) st

/-- The time the armed flush timer is scheduled to fire. -/
def scheduledFlushTime (cfg : GeminiServiceConfig) (b : ModerationBatch) : Nat :=
  b.timerArmedAt + cfg.batchTimeout

/-- The empty engine state. -/
def initialServiceState : GeminiServiceState :=
  { batchMap := [], callers := [], nextCallerId := 0 }

/-! ## Concrete instances used by the counterexamples and witnesses -/

/-- An oracle whose every call fails at the transport level. -/
def errorOracle : ClassifierOracle :=
  { single := GeminiResponse.error, batch := GeminiResponse.error }

/-- The reference configuration of the repository's `ModerationBot`
(timeout 3000 ms, max batch size 5). -/
def botConfig : GeminiServiceConfig := { batchTimeout := 3000, maxBatchSize := 5 }

def chat9Request (t : String) : ModerateMessageRequest :=
  { messageText := t, chatId := some 9 }

/-- The spec's §8 scenario: three requests submitted to conversation 9
within 100 ms, `maxBatchSize = 5`, classifier raising a transport error;
run to the end of the flush cycle. -/
def scenarioStep1 : GeminiServiceState :=
  (queueMessageForModeration botConfig initialServiceState (chat9Request "a") 0).1

def scenarioStep2 : GeminiServiceState :=
  (queueMessageForModeration botConfig scenarioStep1 (chat9Request "b") 50).1

def scenarioStep3 : GeminiServiceState :=
  (queueMessageForModeration botConfig scenarioStep2 (chat9Request "c") 80).1

def scenarioFire : GeminiServiceState × Option FlushJob :=
  batchTimerFire scenarioStep3 9

def scenarioFinal : GeminiServiceState :=
  match scenarioFire.2 with
  | some job => deliverFlush scenarioFire.1 job errorOracle
  | none => scenarioFire.1

/-- The conservative default outcome a failed batch produces for the item
at position 0 of the §8 scenario. -/
def scenarioDefaultOutcome : ModerateMessageResponse :=
  { isSpam := false, confidence := some 0,
    reason := "Произошла ошибка при обработке батча",
    matchesKnownPattern := false, shouldBan := false, messageId := some 0 }

def witnessReq1 : ModerateMessageRequest := { messageText := "w1" }

def witnessReq2 : ModerateMessageRequest := { messageText := "w2" }

def textOracle : ClassifierOracle :=
  { single := GeminiResponse.error, batch := GeminiResponse.text "ответ" }

def partialMsgs : List ModerateMessageRequest :=
  [{ messageText := "p0" }, { messageText := "p1" }, { messageText := "p2" }]

def partialEntries : List BatchEntry :=
  [{ messageIndex := 0, isSpam := true, confidence := 1, reason := "реклама",
     matchesKnownPattern := true, shouldBan := true },
   { messageIndex := 2, isSpam := false, confidence := 0, reason := "не спам",
     matchesKnownPattern := false, shouldBan := false }]

def partialOracle : ClassifierOracle :=
  { single := GeminiResponse.error,
    batch := GeminiResponse.funCall "moderate_messages_batch" (some partialEntries) }

def sizeCfg : GeminiServiceConfig := { batchTimeout := 3000, maxBatchSize := 2 }

def sizeReqA : ModerateMessageRequest := { messageText := "s1", chatId := some 7 }

def sizeReqB : ModerateMessageRequest := { messageText := "s2", chatId := some 7 }

def sizeState : GeminiServiceState :=
  (queueMessageForModeration sizeCfg initialServiceState sizeReqA 0).1

def sizeBatch : ModerationBatch :=
  { messages := [{ sizeReqA with messageId := some 0 }], timerArmed := true,
    timerArmedAt := 0, timerCallerId := 0, lastMessageTime := 0 }

def unitCfg : GeminiServiceConfig := { batchTimeout := 3000, maxBatchSize := 1 }

def unitReq : ModerateMessageRequest := { messageText := "u", chatId := some 7 }

def unitBatch : ModerationBatch :=
  { messages := [{ unitReq with messageId := some 0 }], timerArmed := true,
    timerArmedAt := 0, timerCallerId := 0, lastMessageTime := 0 }

def secondReq : ModerateMessageRequest := { messageText := "b2", chatId := some 9 }

/-- The batch open for chat 9 after the first scenario submission. -/
def scenarioBatch1 : ModerationBatch :=
  { messages := [{ chat9Request "a" with messageId := some 0 }], timerArmed := true,
    timerArmedAt := 0, timerCallerId := 0, lastMessageTime := 0 }

def singleArgsW : SingleArgs :=
  { isSpam := true, confidence := 19/20, reason := "advertising",
    matchesKnownPattern := true, shouldBan := true }

def singleOracle : ClassifierOracle :=
  { single := GeminiResponse.funCall "moderate_message" (some singleArgsW),
    batch := GeminiResponse.error }

def buyReq : ModerateMessageRequest :=
  { messageText := "buy followers now", chatId := some 7 }

def confEntryA : BatchEntry :=
  { messageIndex := 1, isSpam := false, confidence := 1/4, reason := "не спам",
    matchesKnownPattern := false, shouldBan := false }

def confEntryB : BatchEntry :=
  { messageIndex := 0, isSpam := true, confidence := 7/8, reason := "спам",
    matchesKnownPattern := true, shouldBan := false }

def confOracle : ClassifierOracle :=
  { single := GeminiResponse.error,
    batch := GeminiResponse.funCall "moderate_messages_batch" (some [confEntryA, confEntryB]) }

/-- A classifier reply embedding a JSON verdict that flags the item but
carries no `matchesKnownPattern` field. -/
def jsonSpamText : String := "вердикт: \x7b\"isSpam\": true, \"confidence\": 0.9\x7d"

def zeroIdReq : ModerateMessageRequest := { messageText := "z", chatId := some 9 }

/-! ## Supporting lemmas -/

theorem jsMapIdx_go_length (f : Nat → α → β) (l : List α) :
    ∀ i, (jsMapIdx.go f i l).length = l.length := by
  induction l with
  | nil => intro i; rfl
  | cons a as ih => intro i; simp [jsMapIdx.go, ih]

theorem jsMapIdx_length (f : Nat → α → β) (l : List α) :
    (jsMapIdx f l).length = l.length :=
  jsMapIdx_go_length f l 0

theorem jsMapIdx_go_mem (f : Nat → α → β) (l : List α) :
    ∀ i b, b ∈ jsMapIdx.go f i l → ∃ j a, a ∈ l ∧ b = f j a := by
  induction l with
  | nil => intro i b h; simp [jsMapIdx.go] at h
  | cons a as ih =>
    intro i b h
    simp only [jsMapIdx.go, List.mem_cons] at h
    rcases h with h | h
    · exact ⟨i, a, by simp, h⟩
    · rcases ih (i + 1) b h with ⟨j, a2, ha, hb⟩
      exact ⟨j, a2, by simp [ha], hb⟩

theorem jsMapIdx_mem (f : Nat → α → β) (l : List α) (b : β)
    (h : b ∈ jsMapIdx f l) : ∃ j a, a ∈ l ∧ b = f j a :=
  jsMapIdx_go_mem f l 0 b h

theorem insByIndex_length (e : BatchEntry) (l : List BatchEntry) :
    (insByIndex e l).length = l.length + 1 := by
  induction l with
  | nil => rfl
  | cons x xs ih => by_cases h : e.messageIndex < x.messageIndex <;> simp [insByIndex, h, ih]

theorem sortByMessageIndex_foldl_length (l : List BatchEntry) :
    ∀ acc, (l.foldl (fun acc e => insByIndex e acc) acc).length = acc.length + l.length := by
  induction l with
  | nil => intro acc; simp
  | cons x xs ih => intro acc; simp [ih, insByIndex_length]; omega

theorem sortByMessageIndex_length (l : List BatchEntry) :
    (sortByMessageIndex l).length = l.length := by
  simpa using sortByMessageIndex_foldl_length l []

theorem mem_insByIndex (x e : BatchEntry) (l : List BatchEntry)
    (h : x ∈ insByIndex e l) : x = e ∨ x ∈ l := by
  induction l with
  | nil => simpa [insByIndex] using h
  | cons y ys ih =>
    by_cases hc : e.messageIndex < y.messageIndex
    · simp only [insByIndex, if_pos hc, List.mem_cons] at h
      rcases h with h | h | h
      · exact Or.inl h
      · exact Or.inr (by simp [h])
      · exact Or.inr (by simp [h])
    · simp only [insByIndex, if_neg hc, List.mem_cons] at h
      rcases h with h | h
      · exact Or.inr (by simp [h])
      · rcases ih h with h | h
        · exact Or.inl h
        · exact Or.inr (by simp [h])

theorem mem_sortByMessageIndex_foldl (x : BatchEntry) (l : List BatchEntry) :
    ∀ acc, x ∈ l.foldl (fun acc e => insByIndex e acc) acc → x ∈ acc ∨ x ∈ l := by
  induction l with
  | nil => intro acc h; exact Or.inl h
  | cons y ys ih =>
    intro acc h
    rcases ih (insByIndex y acc) h with h2 | h2
    · rcases mem_insByIndex x y acc h2 with h3 | h3
      · exact Or.inr (by simp [h3])
      · exact Or.inl h3
    · exact Or.inr (by simp [h2])

theorem mem_sortByMessageIndex (x : BatchEntry) (l : List BatchEntry)
    (h : x ∈ sortByMessageIndex l) : x ∈ l := by
  rcases mem_sortByMessageIndex_foldl x l [] h with h2 | h2
  · simp at h2
  · exact h2

theorem batchErrorResponses_length (messages : List ModerateMessageRequest) :
    (batchErrorResponses messages).length = messages.length := by
  simp [batchErrorResponses, jsMapIdx_length]

theorem extractBatchResultsFromText_length (text : String)
    (messages : List ModerateMessageRequest) :
    (extractBatchResultsFromText text messages).length = messages.length := by
  simp only [extractBatchResultsFromText]
  split <;> simp [jsMapIdx_length]

theorem mapLookup_erase_self (k : Int) (m : List (Int × ModerationBatch)) :
    mapLookup k (mapErase k m) = none := by
  induction m with
  | nil => rfl
  | cons p rest ih =>
    by_cases h : p.1 = k
    · simpa [mapErase, h] using ih
    · simpa [mapErase, mapLookup, h] using ih

theorem mapLookup_append_single (k : Int) (v : ModerationBatch)
    (m : List (Int × ModerationBatch)) (h : mapLookup k m = none) :
    mapLookup k (m ++ [(k, v)]) = some v := by
  induction m with
  | nil => simp [mapLookup]
  | cons p rest ih =>
    by_cases hp : p.1 = k
    · simp [mapLookup, hp] at h
    · simp only [mapLookup, hp, if_neg] at h ⊢
      rcases p with ⟨k2, v2⟩
      simp only [List.cons_append, mapLookup]
      simp at hp
      simp [hp, ih h]

theorem mapLookup_insert_self (k : Int) (v : ModerationBatch)
    (m : List (Int × ModerationBatch)) :
    mapLookup k (mapInsert k v m) = some v := by
  unfold mapInsert
  by_cases h : (mapLookup k m).isSome = true
  · rw [if_pos h]
    induction m with
    | nil => simp [mapLookup] at h
    | cons p rest ih =>
      rcases p with ⟨k2, v2⟩
      by_cases hk : k2 = k
      · subst hk
        simp only [List.map_cons]
        simp [mapLookup]
      · have h2 : (mapLookup k rest).isSome = true := by
          simpa [mapLookup, hk] using h
        simp only [List.map_cons]
        rw [show (if (k2, v2).1 = k then (k, v) else (k2, v2)) = (k2, v2) by simp [hk]]
        simp only [mapLookup, hk, if_false]
        simpa [hk] using ih h2
  · rw [if_neg h]
    exact mapLookup_append_single k v m (by
      cases hm : mapLookup k m with
      | none => rfl
      | some b => simp [hm] at h)

theorem mapLookup_eq_none_iff (k : Int) (m : List (Int × ModerationBatch)) :
    mapLookup k m = none ↔ k ∉ m.map Prod.fst := by
  induction m with
  | nil => simp [mapLookup]
  | cons p rest ih =>
    rcases p with ⟨k2, v2⟩
    by_cases h : k2 = k
    · subst h
      simp [mapLookup]
    · simp only [mapLookup, h, if_false, List.map_cons, List.mem_cons]
      constructor
      · intro hn hmem
        rcases hmem with hmem | hmem
        · exact h hmem.symm
        · exact (ih.1 hn) hmem
      · intro hnot
        exact ih.2 (fun hmem => hnot (Or.inr hmem))

theorem WFMap_insert (k : Int) (v : ModerationBatch)
    (m : List (Int × ModerationBatch)) (h : WFMap m) : WFMap (mapInsert k v m) := by
  unfold mapInsert
  by_cases hs : (mapLookup k m).isSome = true
  · rw [if_pos hs]
    unfold WFMap
    have hkeys : (m.map (fun p => if p.1 = k then (k, v) else p)).map Prod.fst
        = m.map Prod.fst := by
      simp only [List.map_map]
      apply List.map_congr_left
      intro p _
      by_cases hp : p.1 = k <;> simp [hp]
    rw [hkeys]
    exact h
  · rw [if_neg hs]
    unfold WFMap
    have hk : k ∉ m.map Prod.fst := by
      apply (mapLookup_eq_none_iff k m).1
      cases hm : mapLookup k m with
      | none => rfl
      | some b => simp [hm] at hs
    simp only [List.map_append, List.map_cons, List.map_nil]
    refine List.Nodup.append h (List.nodup_singleton k) ?_
    intro x hx hxk
    simp only [List.mem_singleton] at hxk
    subst hxk
    exact hk hx

theorem WFMap_erase (k : Int) (m : List (Int × ModerationBatch))
    (h : WFMap m) : WFMap (mapErase k m) := by
  unfold WFMap mapErase
  exact List.Nodup.sublist (List.Sublist.map Prod.fst (List.filter_sublist m)) h

/-! ## Claim theorems -/

/-- C1: the claim states that for every flushed batch with n ≥ 2 items,
every waiting caller is settled with its own outcome, even on a full
Gateway failure.  Evaluating the engine at the spec's own §8 scenario
(three submissions to conversation 9, transport error) refutes this: the
timer callback only captured the FIRST caller's `handleResult` closure,
so the loop resolves caller 0 three times while callers 1 and 2 stay
pending forever.  The source's comment above the loop ("process the
results for all messages of this batch") and the spec agree on the
intent, so this is a code bug. -/
theorem queueMessageForModeration_fanout_bug_eval :
    scenarioFinal.callers =
      [CallerState.resolved scenarioDefaultOutcome,
       CallerState.pending, CallerState.pending] := by
  decide

/-- C2: for every non-empty request list, `moderateMessageBatch` returns
exactly one outcome per request in each of the four response regimes:
valid structured output (one entry per request), malformed structured
output (wrong function name or missing arguments), free text, and
transport error — the hypothesis `hcomplete` excludes only the partial
structured reply, which the spec files under PartialResultError. -/
theorem moderateMessageBatch_length_eq
    (messages : List ModerateMessageRequest) (oracle : ClassifierOracle)
    (hne : messages ≠ [])
    (hcomplete : ∀ entries,
      oracle.batch = GeminiResponse.funCall "moderate_messages_batch" (some entries) →
      entries.length = messages.length) :
    (moderateMessageBatch messages oracle).length = messages.length := by
  match messages, hne with
  | [], h => exact absurd rfl h
  | [m], _ => simp [moderateMessageBatch]
  | m1 :: m2 :: rest, _ =>
    cases hb : oracle.batch with
    | funCall name args =>
      cases args with
      | none => simp [moderateMessageBatch, hb, batchErrorResponses_length]
      | some entries =>
        by_cases hname : name = "moderate_messages_batch"
        · subst hname
          have hlen := hcomplete entries hb
          simp [moderateMessageBatch, hb, jsMapIdx_length, sortByMessageIndex_length, hlen]
        · simp [moderateMessageBatch, hb, hname, batchErrorResponses_length]
    | text t => simp [moderateMessageBatch, hb, extractBatchResultsFromText_length]
    | empty => simp [moderateMessageBatch, hb, batchErrorResponses_length]
    | error => simp [moderateMessageBatch, hb, batchErrorResponses_length]

/-- Witness for C2 at a concrete two-request batch with a free-text
reply. -/
theorem moderateMessageBatch_length_eq_witness :
    (([witnessReq1, witnessReq2] : List ModerateMessageRequest) ≠ []) ∧
    (moderateMessageBatch [witnessReq1, witnessReq2] textOracle).length =
      ([witnessReq1, witnessReq2] : List ModerateMessageRequest).length :=
  ⟨by decide,
   moderateMessageBatch_length_eq [witnessReq1, witnessReq2] textOracle (by decide)
     (by intro entries h; simp [textOracle] at h)⟩

/-- C3 counterexample: three requests, a structured reply citing only
indices 0 and 2.  The claim requires the unmatched request to receive the
conservative default (three outcomes in total); the code instead returns
one outcome per classifier entry — two outcomes, nothing defaulted. -/
theorem moderateMessageBatch_partial_no_defaulting :
    (moderateMessageBatch partialMsgs partialOracle).length = 2 ∧
    partialMsgs.length = 3 := by
  decide

/-- C3 as amended: on a partial or duplicate-index structured reply the
matched entries do keep their real outcomes (sorted by the declared
index), but the unmatched requests get no outcome at all — the result
list has exactly one element per classifier entry. -/
theorem moderateMessageBatch_partial_keeps_entries
    (messages : List ModerateMessageRequest) (entries : List BatchEntry)
    (oracle : ClassifierOracle) (h2 : 2 ≤ messages.length)
    (hb : oracle.batch = GeminiResponse.funCall "moderate_messages_batch" (some entries)) :
    (moderateMessageBatch messages oracle).length = entries.length ∧
    ∀ r ∈ moderateMessageBatch messages oracle, ∃ e ∈ entries,
      r.isSpam = e.isSpam ∧ r.confidence = some e.confidence ∧ r.reason = e.reason ∧
      r.matchesKnownPattern = e.matchesKnownPattern ∧ r.shouldBan = e.shouldBan := by
  match messages, h2 with
  | [], h => simp at h
  | [m], h => simp at h
  | m1 :: m2 :: rest, _ =>
    simp only [moderateMessageBatch, hb, if_pos]
    constructor
    · rw [jsMapIdx_length, sortByMessageIndex_length]
    · intro r hr
      rcases jsMapIdx_mem _ _ r hr with ⟨j, e, he, rfl⟩
      exact ⟨e, mem_sortByMessageIndex e entries he, rfl, rfl, rfl, rfl, rfl⟩

/-- Witness for the amended C3 at the concrete partial reply. -/
theorem moderateMessageBatch_partial_keeps_entries_witness :
    2 ≤ partialMsgs.length ∧
    (moderateMessageBatch partialMsgs partialOracle).length = partialEntries.length :=
  ⟨by decide,
   (moderateMessageBatch_partial_keeps_entries partialMsgs partialEntries partialOracle
     (by decide) rfl).1⟩

theorem handleResult_batchMap (st : GeminiServiceState) (a b : Nat)
    (res : List ModerateMessageResponse) :
    (handleResult st a b res).batchMap = st.batchMap := by
  unfold handleResult
  cases res.get? b <;> rfl

theorem deliverFlush_batchMap (st : GeminiServiceState) (job : FlushJob)
    (oracle : ClassifierOracle) : (deliverFlush st job oracle).batchMap = st.batchMap := by
  unfold deliverFlush
  generalize List.range job.iterations = l
  generalize moderateMessageBatch job.snapshot oracle = res
  induction l generalizing st with
  | nil => rfl
  | cons x xs ih =>
    simp only [List.foldl_cons]
    rw [ih, handleResult_batchMap]

/-- C4: the open-batch map invariants.  (a) submit and timer fire keep
one entry per chat id; (b) whenever a step issues a classifier call (a
`FlushJob`), the flushed chat id is already absent from the returned
state's map — the batch is removed before the call is issued; (c)
completing a call never touches the map; (d) a request arriving for a
chat with no open batch (in particular one arriving during an in-flight
call) opens a fresh single-message batch. -/
theorem open_batch_map_invariants :
    (∀ cfg st r now, WFMap st.batchMap →
       WFMap ((queueMessageForModeration cfg st r now).1).batchMap) ∧
    (∀ st c, WFMap st.batchMap → WFMap ((batchTimerFire st c).1).batchMap) ∧
    (∀ cfg st r now st2 job,
       queueMessageForModeration cfg st r now = (st2, some job) →
       mapLookup (jsOrInt r.chatId 0) st2.batchMap = none) ∧
    (∀ st c st2 job, batchTimerFire st c = (st2, some job) →
       mapLookup c st2.batchMap = none) ∧
    (∀ st job oracle, (deliverFlush st job oracle).batchMap = st.batchMap) ∧
    (∀ cfg st r now, mapLookup (jsOrInt r.chatId 0) st.batchMap = none →
       ∃ b, mapLookup (jsOrInt r.chatId 0)
              ((queueMessageForModeration cfg st r now).1).batchMap = some b ∧
            b.messages = [{ r with messageId := some (jsOrInt r.messageId 0) }] ∧
            b.timerArmed = true) := by
  refine ⟨?_, ?_, ?_, ?_, ?_, ?_⟩
  · intro cfg st r now h
    simp only [queueMessageForModeration]
    split
    · exact WFMap_insert _ _ _ h
    · split
      · exact WFMap_erase _ _ h
      · exact WFMap_insert _ _ _ h
  · intro st c h
    unfold batchTimerFire
    cases hm : mapLookup c st.batchMap with
    | none => exact h
    | some b =>
      by_cases hb : b.timerArmed = true
      · simp only [hb, if_pos]
        exact WFMap_erase _ _ h
      · simp only [hb, if_neg]
        exact h
  · intro cfg st r now st2 job h
    simp only [queueMessageForModeration] at h
    split at h
    · simp at h
    · split at h
      · injection h with h1 h2
        subst h1
        exact mapLookup_erase_self _ _
      · simp at h
  · intro st c st2 job h
    unfold batchTimerFire at h
    cases hm : mapLookup c st.batchMap with
    | none => rw [hm] at h; simp at h
    | some b =>
      rw [hm] at h
      dsimp only at h
      by_cases hb : b.timerArmed = true
      · rw [if_pos hb] at h
        injection h with h1 h2
        subst h1
        exact mapLookup_erase_self _ _
      · rw [if_neg hb] at h
        simp at h
  · intro st job oracle
    exact deliverFlush_batchMap st job oracle
  · intro cfg st r now h
    simp only [queueMessageForModeration, h]
    refine ⟨_, mapLookup_insert_self _ _ _, by simp, rfl⟩

/-- Witness for C4: the map invariants applied at the empty engine state
and the reference configuration. -/
theorem open_batch_map_invariants_witness :
    (WFMap initialServiceState.batchMap ∧
     WFMap ((queueMessageForModeration botConfig initialServiceState
       (chat9Request "a") 0).1).batchMap) ∧
    (mapLookup (jsOrInt (chat9Request "a").chatId 0) initialServiceState.batchMap = none ∧
     ∃ b, mapLookup (jsOrInt (chat9Request "a").chatId 0)
            ((queueMessageForModeration botConfig initialServiceState
              (chat9Request "a") 0).1).batchMap = some b ∧
          b.messages = [{ chat9Request "a" with
            messageId := some (jsOrInt (chat9Request "a").messageId 0) }] ∧
          b.timerArmed = true) :=
  ⟨⟨by simp [WFMap, initialServiceState],
    open_batch_map_invariants.1 botConfig initialServiceState (chat9Request "a") 0
      (by simp [WFMap, initialServiceState])⟩,
   ⟨rfl,
    open_batch_map_invariants.2.2.2.2.2 botConfig initialServiceState (chat9Request "a") 0 rfl⟩⟩

/-- C5 as amended (the claim holds for every configuration with
`maxBatchSize ≥ 2`): when an appended request makes the open batch reach
`maxBatchSize`, that very submission issues the flush (carrying all
`maxBatchSize` items), the batch leaves the open map, and no timer-based
flush can fire for it afterwards. -/
theorem size_flush_preempts_timer
    (cfg : GeminiServiceConfig) (st : GeminiServiceState)
    (r : ModerateMessageRequest) (now : Nat) (b : ModerationBatch)
    (hmax : 2 ≤ cfg.maxBatchSize)
    (hb : mapLookup (jsOrInt r.chatId 0) st.batchMap = some b)
    (hfull : b.messages.length + 1 = cfg.maxBatchSize) :
    ∃ st2 job, queueMessageForModeration cfg st r now = (st2, some job) ∧
      job.snapshot.length = cfg.maxBatchSize ∧
      job.iterations = 1 ∧
      mapLookup (jsOrInt r.chatId 0) st2.batchMap = none ∧
      batchTimerFire st2 (jsOrInt r.chatId 0) = (st2, none) := by
  simp only [queueMessageForModeration, hb]
  split
  · next hcond =>
    exfalso
    simp only [List.length_append, List.length_cons, List.length_nil] at hcond
    omega
  · split
    · refine ⟨_, _, rfl, ?_, rfl, ?_, ?_⟩
      · simpa using hfull
      · exact mapLookup_erase_self _ _
      · unfold batchTimerFire
        dsimp only
        rw [mapLookup_erase_self]
    · next h1 h2 =>
      exfalso
      simp only [List.length_append, List.length_cons, List.length_nil] at h2
      omega

/-- Witness for the amended C5: with `maxBatchSize = 2`, the second
submission for chat 7 issues the flush immediately. -/
theorem size_flush_preempts_timer_witness :
    (2 ≤ sizeCfg.maxBatchSize ∧
     mapLookup (jsOrInt sizeReqB.chatId 0) sizeState.batchMap = some sizeBatch ∧
     sizeBatch.messages.length + 1 = sizeCfg.maxBatchSize) ∧
    ∃ st2 job, queueMessageForModeration sizeCfg sizeState sizeReqB 10 = (st2, some job) ∧
      job.snapshot.length = sizeCfg.maxBatchSize ∧
      job.iterations = 1 ∧
      mapLookup (jsOrInt sizeReqB.chatId 0) st2.batchMap = none ∧
      batchTimerFire st2 (jsOrInt sizeReqB.chatId 0) = (st2, none) :=
  ⟨⟨by decide, by decide, by decide⟩,
   size_flush_preempts_timer sizeCfg sizeState sizeReqB 10 sizeBatch
     (by decide) (by decide) (by decide)⟩

/-- C5 counterexample: with `maxBatchSize = 1` the first submission makes
the batch reach `maxBatchSize`, yet no flush is issued at that
submission — the engine arms the timer and leaves the batch open,
because the source checks `length === 1` before the size check. -/
theorem size_one_submission_does_not_flush :
    (queueMessageForModeration unitCfg initialServiceState unitReq 0).2 = none ∧
    mapLookup 7 ((queueMessageForModeration unitCfg initialServiceState unitReq 0).1).batchMap
      = some unitBatch ∧
    unitBatch.timerArmed = true := by
  decide

/-- C6: the flush timer is armed exactly when the first item arrives
(and then the submission issues no flush), scheduled for
`batchTimeoutMs` after that arrival; appending a later item below the
size limit leaves the timer's armed state, its owner and its scheduled
fire time untouched while still growing the batch — so the clock is
never reset by later arrivals. -/
theorem timer_armed_once_not_reset :
    (∀ cfg st r now, mapLookup (jsOrInt r.chatId 0) st.batchMap = none →
       ∃ b, mapLookup (jsOrInt r.chatId 0)
              ((queueMessageForModeration cfg st r now).1).batchMap = some b ∧
            b.timerArmed = true ∧ b.timerArmedAt = now ∧
            scheduledFlushTime cfg b = now + cfg.batchTimeout ∧
            (queueMessageForModeration cfg st r now).2 = none) ∧
    (∀ cfg st r now b, mapLookup (jsOrInt r.chatId 0) st.batchMap = some b →
       b.messages ≠ [] → b.messages.length + 1 < cfg.maxBatchSize →
       ∃ b2, mapLookup (jsOrInt r.chatId 0)
               ((queueMessageForModeration cfg st r now).1).batchMap = some b2 ∧
             b2.timerArmed = b.timerArmed ∧
             b2.timerArmedAt = b.timerArmedAt ∧
             b2.timerCallerId = b.timerCallerId ∧
             scheduledFlushTime cfg b2 = scheduledFlushTime cfg b ∧
             b2.messages.length = b.messages.length + 1 ∧
             b2.lastMessageTime = now ∧
             (queueMessageForModeration cfg st r now).2 = none) := by
  constructor
  · intro cfg st r now h
    simp only [queueMessageForModeration, h]
    exact ⟨_, mapLookup_insert_self _ _ _, rfl, rfl, rfl, rfl⟩
  · intro cfg st r now b hb hne hbelow
    simp only [queueMessageForModeration, hb]
    split
    · next hcond =>
      exfalso
      simp only [List.length_append, List.length_cons, List.length_nil] at hcond
      have : b.messages.length = 0 := by omega
      exact hne (List.length_eq_zero.mp this)
    · split
      · next h1 h2 =>
        exfalso
        simp only [List.length_append, List.length_cons, List.length_nil] at h2
        omega
      · exact ⟨_, mapLookup_insert_self _ _ _, rfl, rfl, rfl, rfl, by simp, rfl, rfl⟩

/-- Witness for C6: arming at the first submission for chat 9, and
appending a second request 50 ms later without touching the timer. -/
theorem timer_armed_once_not_reset_witness :
    (mapLookup (jsOrInt (chat9Request "a").chatId 0) initialServiceState.batchMap = none ∧
     ∃ b, mapLookup (jsOrInt (chat9Request "a").chatId 0) scenarioStep1.batchMap = some b ∧
          b.timerArmed = true ∧ b.timerArmedAt = 0 ∧
          scheduledFlushTime botConfig b = 0 + botConfig.batchTimeout ∧
          (queueMessageForModeration botConfig initialServiceState (chat9Request "a") 0).2
            = none) ∧
    ∃ b2, mapLookup (jsOrInt secondReq.chatId 0)
            ((queueMessageForModeration botConfig scenarioStep1 secondReq 50).1).batchMap
          = some b2 ∧
        b2.timerArmed = scenarioBatch1.timerArmed ∧
        b2.timerArmedAt = scenarioBatch1.timerArmedAt ∧
        b2.timerCallerId = scenarioBatch1.timerCallerId ∧
        scheduledFlushTime botConfig b2 = scheduledFlushTime botConfig scenarioBatch1 ∧
        b2.messages.length = scenarioBatch1.messages.length + 1 ∧
        b2.lastMessageTime = 50 ∧
        (queueMessageForModeration botConfig scenarioStep1 secondReq 50).2 = none :=
  ⟨⟨rfl, timer_armed_once_not_reset.1 botConfig initialServiceState (chat9Request "a") 0 rfl⟩,
   timer_armed_once_not_reset.2 botConfig scenarioStep1 secondReq 50 scenarioBatch1
     (by decide) (by decide) (by decide)⟩

/-- C7: a flushed single-item snapshot goes through the Gateway's
single-item operation: `moderateMessageBatch` on one message is exactly
`moderateMessage` on that message (independent of the batch-call
oracle), the single-item structured path copies the classifier's five
decision fields unmodified (only the correlation id is filled in from
the request), and running the whole engine on one submission resolves
that caller with exactly this outcome. -/
theorem single_item_uses_single_path :
    (∀ m oracle, moderateMessageBatch [m] oracle = [moderateMessage m oracle.single]) ∧
    (∀ m s b1 b2,
       moderateMessageBatch [m] { single := s, batch := b1 }
         = moderateMessageBatch [m] { single := s, batch := b2 }) ∧
    (∀ m args, moderateMessage m (GeminiResponse.funCall "moderate_message" (some args)) =
       { isSpam := args.isSpam, confidence := some args.confidence, reason := args.reason,
         matchesKnownPattern := args.matchesKnownPattern, shouldBan := args.shouldBan,
         messageId := m.messageId }) ∧
    (∀ cfg r now args oracle,
       oracle.single = GeminiResponse.funCall "moderate_message" (some args) →
       (queueMessageForModeration cfg initialServiceState r now).2 = none ∧
       ∃ st2 job,
         batchTimerFire (queueMessageForModeration cfg initialServiceState r now).1
             (jsOrInt r.chatId 0) = (st2, some job) ∧
         job.snapshot.length = 1 ∧
         (deliverFlush st2 job oracle).callers =
           [CallerState.resolved
             { isSpam := args.isSpam, confidence := some args.confidence,
               reason := args.reason, matchesKnownPattern := args.matchesKnownPattern,
               shouldBan := args.shouldBan,
               messageId := some (jsOrInt r.messageId 0) }]) := by
  refine ⟨fun m oracle => rfl, fun m s b1 b2 => rfl, fun m args => rfl, ?_⟩
  intro cfg r now args oracle hsingle
  refine ⟨by simp [queueMessageForModeration, mapLookup, initialServiceState],
    { batchMap := [], callers := [CallerState.pending], nextCallerId := 1 },
    { snapshot := [{ r with messageId := some (jsOrInt r.messageId 0) }],
      callerId := 0, callerIdx := 0, iterations := 1 }, ?_, rfl, ?_⟩
  · simp [queueMessageForModeration, batchTimerFire, mapLookup, mapInsert, mapErase,
      initialServiceState, Int.ofNat_zero]
  · simp only [deliverFlush, moderateMessageBatch, hsingle, moderateMessage]
    rw [show List.range 1 = [0] from rfl]
    simp [handleResult, settleCaller, jsMapIdx, jsMapIdx.go, List.foldl]

/-- Witness for C7: the spec's single-item scenario (one request to
conversation 7, a structured single-item reply) run through the whole
engine. -/
theorem single_item_uses_single_path_witness :
    singleOracle.single = GeminiResponse.funCall "moderate_message" (some singleArgsW) ∧
    ((queueMessageForModeration botConfig initialServiceState buyReq 0).2 = none ∧
     ∃ st2 job,
       batchTimerFire (queueMessageForModeration botConfig initialServiceState buyReq 0).1
           (jsOrInt buyReq.chatId 0) = (st2, some job) ∧
       job.snapshot.length = 1 ∧
       (deliverFlush st2 job singleOracle).callers =
         [CallerState.resolved
           { isSpam := singleArgsW.isSpam, confidence := some singleArgsW.confidence,
             reason := singleArgsW.reason,
             matchesKnownPattern := singleArgsW.matchesKnownPattern,
             shouldBan := singleArgsW.shouldBan,
             messageId := some (jsOrInt buyReq.messageId 0) }]) :=
  ⟨rfl, single_item_uses_single_path.2.2.2 botConfig buyReq 0 singleArgsW singleOracle rfl⟩

theorem jsMapIdx_go_map_proj (f : Nat → α → β) (g : β → γ) (h : α → γ)
    (hfg : ∀ i a, g (f i a) = h a) (l : List α) :
    ∀ i, (jsMapIdx.go f i l).map g = l.map h := by
  induction l with
  | nil => intro i; rfl
  | cons a as ih => intro i; simp [jsMapIdx.go, hfg, ih]

theorem jsMapIdx_map_proj (f : Nat → α → β) (g : β → γ) (h : α → γ)
    (hfg : ∀ i a, g (f i a) = h a) (l : List α) :
    (jsMapIdx f l).map g = l.map h :=
  jsMapIdx_go_map_proj f g h hfg l 0

/-- C8 as amended: confidence is always assigned, and a
classifier-supplied confidence is passed through entirely unaltered —
the Gateway performs no clamping at all (neither on the single-item nor
the batch structured path), and the text-heuristic's derived confidence
can therefore fall outside `[0,1]`. -/
theorem gateway_confidence_passthrough :
    (∀ m args, (moderateMessage m
        (GeminiResponse.funCall "moderate_message" (some args))).confidence
      = some args.confidence) ∧
    (∀ messages entries oracle, 2 ≤ messages.length →
       oracle.batch = GeminiResponse.funCall "moderate_messages_batch" (some entries) →
       (moderateMessageBatch messages oracle).map (fun r => r.confidence)
         = (sortByMessageIndex entries).map (fun e => some e.confidence)) := by
  constructor
  · intro m args; rfl
  · intro messages entries oracle h2 hb
    match messages, h2 with
    | [], h => simp at h
    | [m], h => simp at h
    | m1 :: m2 :: rest, _ =>
      simp only [moderateMessageBatch, hb, if_pos]
      apply jsMapIdx_map_proj
      intro i e
      rfl

/-- Witness for the amended C8 at a concrete two-entry structured
reply. -/
theorem gateway_confidence_passthrough_witness :
    2 ≤ ([witnessReq1, witnessReq2] : List ModerateMessageRequest).length ∧
    (moderateMessageBatch [witnessReq1, witnessReq2] confOracle).map (fun r => r.confidence)
      = (sortByMessageIndex [confEntryA, confEntryB]).map (fun e => some e.confidence) :=
  ⟨by decide,
   gateway_confidence_passthrough.2 [witnessReq1, witnessReq2] [confEntryA, confEntryB]
     confOracle (by decide) rfl⟩

/-- C8 counterexample: the text-heuristic path on `"уверенность: 250"`
treats 250 as a percentage and stores confidence 2.5, outside `[0,1]` —
no clamping exists anywhere in the Gateway. -/
theorem extract_confidence_exceeds_one :
    (extractModerationFromText "уверенность: 250").confidence.isSome = true ∧
    1 < (extractModerationFromText "уверенность: 250").confidence.getD 0 := by
  have hj : jsonTrust ("уверенность: 250".toList) = none := by decide
  have hc : capAlts confPats ("уверенность: 250".toList) = some ['2', '5', '0'] := by decide
  have hp : jsParseFloat ['2', '5', '0'] = some ((250 : ℚ)) := by decide
  simp only [extractModerationFromText, extractModerationCore, hj, keywordExtract, hc, hp]
  norm_num

theorem keywordExtract_flag_pattern (cs : List Char) :
    (keywordExtract cs).isSpam = true → (keywordExtract cs).matchesKnownPattern = true := by
  simp only [keywordExtract]
  intro h
  rw [h]
  simp

/-- C9 as amended: the flagged-implies-pattern rule holds exactly on the
keyword path, i.e. whenever no usable embedded JSON object is found; the
embedded-JSON trust path copies `matchesKnownPattern` verbatim from the
JSON and can return a flagged outcome without the pattern bit. -/
theorem extract_flag_implies_pattern (text : String)
    (h : jsonTrust text.toList = none) :
    (extractModerationFromText text).isSpam = true →
    (extractModerationFromText text).matchesKnownPattern = true := by
  unfold extractModerationFromText extractModerationCore
  rw [h]
  exact keywordExtract_flag_pattern text.toList

/-- Witness for the amended C9 on a concrete keyword-path text. -/
theorem extract_flag_implies_pattern_witness :
    jsonTrust ("это спам".toList) = none ∧
    ((extractModerationFromText "это спам").isSpam = true →
     (extractModerationFromText "это спам").matchesKnownPattern = true) :=
  ⟨by decide, extract_flag_implies_pattern "это спам" (by decide)⟩

/-- C9 counterexample: on the embedded-JSON trust path the extractor
returns `isSpam = true` with `matchesKnownPattern = false` — the
flagged-implies-pattern rule does not hold for every input string. -/
theorem extract_json_flag_without_pattern :
    (extractModerationFromText jsonSpamText).isSpam = true ∧
    (extractModerationFromText jsonSpamText).matchesKnownPattern = false := by
  decide

/-- C10: a caller-supplied `messageId` of 0 is indistinguishable from an
absent one at the public submit operation — the submission behaves
identically (same state, same flush decision), and the stored item gets
the positional index within its batch as its correlation id. -/
theorem zero_correlation_id_positional :
    (∀ (cfg : GeminiServiceConfig) (st : GeminiServiceState)
       (r : ModerateMessageRequest) (now : Nat),
       queueMessageForModeration cfg st { r with messageId := some 0 } now =
       queueMessageForModeration cfg st { r with messageId := none } now) ∧
    (∀ (cfg : GeminiServiceConfig) (st : GeminiServiceState)
       (r : ModerateMessageRequest) (now : Nat) (b : ModerationBatch),
       mapLookup (jsOrInt r.chatId 0) st.batchMap = some b →
       b.messages ≠ [] → b.messages.length + 1 < cfg.maxBatchSize →
       ∃ b2, mapLookup (jsOrInt r.chatId 0)
               ((queueMessageForModeration cfg st
                 { r with messageId := some 0 } now).1).batchMap = some b2 ∧
           b2.messages = b.messages ++
             [{ r with messageId := some (Int.ofNat b.messages.length) }]) := by
  constructor
  · intro cfg st r now
    simp [queueMessageForModeration, jsOrInt]
  · intro cfg st r now b hb hne hbelow
    simp only [queueMessageForModeration, hb]
    split
    · next hcond =>
      exfalso
      simp only [List.length_append, List.length_cons, List.length_nil] at hcond
      have : b.messages.length = 0 := by omega
      exact hne (List.length_eq_zero.mp this)
    · split
      · next h1 h2 =>
        exfalso
        simp only [List.length_append, List.length_cons, List.length_nil] at h2
        omega
      · refine ⟨_, mapLookup_insert_self _ _ _, ?_⟩
        simp [jsOrInt]

/-- Witness for C10: submitting `messageId = 0` as the second item of an
open batch stores positional index 1 instead. -/
theorem zero_correlation_id_positional_witness :
    (mapLookup (jsOrInt zeroIdReq.chatId 0) scenarioStep1.batchMap = some scenarioBatch1 ∧
     scenarioBatch1.messages ≠ [] ∧
     scenarioBatch1.messages.length + 1 < botConfig.maxBatchSize) ∧
    ∃ b2, mapLookup (jsOrInt zeroIdReq.chatId 0)
            ((queueMessageForModeration botConfig scenarioStep1
              { zeroIdReq with messageId := some 0 } 60).1).batchMap = some b2 ∧
        b2.messages = scenarioBatch1.messages ++
          [{ zeroIdReq with messageId := some (Int.ofNat scenarioBatch1.messages.length) }] :=
  ⟨⟨by decide, by decide, by decide⟩,
   zero_correlation_id_positional.2 botConfig scenarioStep1 zeroIdReq 60 scenarioBatch1
     (by decide) (by decide) (by decide)⟩
